import Mathlib

/-!
Verification of the indicator ingestion pipeline of `cs_misp_import`
(`indicators.py`, `threaded_misp.py`) against its design document.

The Python code is shallowly embedded: dictionaries become association
lists, worker pools become sequential folds over the submitted items
(an exception raised inside a worker is recorded and re-raised when the
batch collects its futures), and Python exceptions become explicit
outcome constructors.  Collaborator modules that are not part of the
analysed sources (`indicator_type.py`, `helper.gen_indicator`,
`indicator_family.py`) are modelled from the spec as parameters of the
worker context; this is noted at each such field.
-/

namespace CsMisp

/-! ## Retrying transport (`threaded_misp.py`, `MISP._retry`) -/

/-- Outcome of one invocation of the wrapped callable `f` inside
`MISP._retry`: either a returned response whose optional `errors`
payload carries the numeric code `response["errors"][0]`, or a raised
exception. -/
inductive AttemptResult where
  | resp (errCode : Option Nat)
  | exn
deriving DecidableEq, Repr

/-- What a call routed through `MISP._retry` does, as seen by its caller:
return a response (with its error-code field), fall off the loop and
return Python `None`, or let an exception escape. -/
inductive RetryOutcome where
  | ret (errCode : Option Nat)
  | retNone
  | raised
deriving DecidableEq, Repr

/-- `MISP.MAX_RETRIES`. -/
def MAX_RETRIES : Nat := 3

/-- Body of the `for i in range(self.MAX_RETRIES)` loop of `MISP._retry`.
A response without an `errors` key, or with error code 404, returns
immediately.  Any other error payload retries while `i + 1 < MAX_RETRIES`;
at the last attempt the `raise PyMISPError(...)` statement executes inside
the `try` block, is caught by the function's own `except Exception` clause,
and that clause (whose final `raise e` is commented out) only logs, so the
loop ends and the function returns `None`.  A raised exception from `f`
follows the same `except` path. -/
def retryFrom : Nat → List AttemptResult → RetryOutcome
  | _, [] => RetryOutcome.retNone
  | _, AttemptResult.resp none :: _ => RetryOutcome.ret none
  | i, AttemptResult.resp (some c) :: rest =>
      if c = 404 then RetryOutcome.ret (some c)
      else if i + 1 < MAX_RETRIES then retryFrom (i + 1) rest
      else RetryOutcome.retNone
  | i, AttemptResult.exn :: rest =>
      if i + 1 < MAX_RETRIES then retryFrom (i + 1) rest
      else RetryOutcome.retNone

/-- `MISP._retry`, applied to the stream of attempt outcomes produced by
successive invocations of the wrapped callable. -/
def mispRetry (attempts : List AttemptResult) : RetryOutcome :=
  retryFrom 0 attempts

/-- An attempt that neither returns cleanly nor carries the 404 code:
a non-404 application error payload or a transport-level exception. -/
def isFailing : AttemptResult → Bool
  | AttemptResult.resp none => false
  | AttemptResult.resp (some c) => c != 404
  | AttemptResult.exn => true

/-! ## Batch size clamp (`push_indicators`) -/

/-- `IND_BATCH_SIZE = max(50, min(5000, int(self.settings["MISP"].get("ind_attribute_batch_size", 500))))`. -/
def IND_BATCH_SIZE (ind_attribute_batch_size : Option Int) : Int :=
  max 50 (min 5000 (ind_attribute_batch_size.getD 500))

/-! ## Indicators and the per-page checkpoint (`push_indicators`, `process_indicators`) -/

/-- Source indicator record; only the fields read by the analysed code
paths are modelled. -/
structure Indicator where
  type : Option String
  indicator : Option String
  last_updated : Option Nat
  published_date : Option Nat
  malware_family : Option String
deriving DecidableEq, Repr

/-- The non-null `last_updated` values of a page, in page order. -/
def lastUpdatedVals (page : List Indicator) : List Nat :=
  page.filterMap (fun i => i.last_updated)

/-- `next(i.get('last_updated') for i in reversed(indicators) if i.get('last_updated') is not None)`:
the first non-null `last_updated` scanning the page from its end.
`none` models the unhandled `StopIteration` raised when the generator is
exhausted (no such element, in particular on an empty page). -/
def pageCheckpoint (page : List Indicator) : Option Nat :=
  (page.reverse.filterMap (fun i => i.last_updated)).head?

/-- Aggregate outcome of the per-page loop of `process_indicators`:
the successive `_note_timestamp` writes performed by `push_indicators`,
and whether a `StopIteration` escaped (aborting the run). -/
structure PagesOutcome where
  commits : List Nat
  aborted : Bool
deriving DecidableEq, Repr

/-- The `for indicators_page in ... get_indicators(...)` loop: each page is
pushed and then checkpointed; a page without a checkpoint value raises
`StopIteration` out of `push_indicators`, so nothing is committed for it
and no later page runs. -/
def runPages : List (List Indicator) → PagesOutcome
  | [] => { commits := [], aborted := false }
  | page :: rest =>
      match pageCheckpoint page with
      | none => { commits := [], aborted := true }
      | some t =>
          let r := runPages rest
          { commits := t :: r.commits, aborted := r.aborted }

/-- Total number of indicators returned by the source across all pages
(`indicators_count`). -/
def pagesCount (pages : List (List Indicator)) : Nat :=
  (pages.map List.length).sum

/-- Final checkpoint behaviour of a run (`IndicatorsImporter.process_indicators`):
`committed` lists the checkpoint-file writes in order; `aborted` records an
escaped `StopIteration`.  `time_send_request` is the timestamp captured just
before the indicator fetch; it is committed only when the whole run counted
zero indicators and no page aborted the loop. -/
structure RunResult where
  committed : List Nat
  aborted : Bool
deriving DecidableEq, Repr

/-- `IndicatorsImporter.process_indicators`, restricted to its checkpoint
effects. -/
def processIndicators (time_send_request : Nat) (pages : List (List Indicator)) : RunResult :=
  let r := runPages pages
  if r.aborted then { committed := r.commits, aborted := true }
  else if pagesCount pages = 0 then { committed := r.commits ++ [time_send_request], aborted := false }
  else { committed := r.commits, aborted := false }

/-- The sequence of per-page checkpoint commits of a run. -/
def runCommits (pages : List (List Indicator)) : List Nat :=
  (runPages pages).commits

/-- Concatenation of the non-null `last_updated` values of a sequence of
pages, in feed order. -/
def joinedVals : List (List Indicator) → List Nat
  | [] => []
  | p :: rest => lastUpdatedVals p ++ joinedVals rest

/-! ## Container events and the dirty set (`event_thread`, `get_laundry`,
`clean_laundry`, the flush loop of `push_indicators`) -/

/-- One attribute attached to a container event (the fields of pymisp's
`MISPAttribute` the analysed code reads). -/
structure MAttribute where
  type : String
  value : String
deriving DecidableEq, Repr

/-- In-memory destination container event: the fields of pymisp's
`MISPEvent` that `indicators.py` reads and mutates. -/
structure MISPEvent where
  info : String
  attributes : List MAttribute
deriving DecidableEq, Repr

/-- Whether one of the first `n` save attempts succeeds: the
`while tries < 4 and not successful` loop of `event_thread` stops at the
first successful `self.misp.update_event(evt)`; each `false` entry stands
for a raised `SSLError`/`ConnectionError`/`MISPServerError`. -/
def saveSucceeds : Nat → List Bool → Bool
  | 0, _ => false
  | _ + 1, [] => false
  | n + 1, a :: rest => a || saveSucceeds n rest

/-- Observable outcome of `IndicatorsImporter.event_thread`. -/
structure EventThreadResult where
  successful : Bool
  errorLogged : Bool
  returned : String
deriving DecidableEq, Repr

/-- `IndicatorsImporter.event_thread`: retries the save up to 3 times,
logs an error when all fail, and returns `evt.info` in every case. -/
def event_thread (evtInfo : String) (attempts : List Bool) : EventThreadResult :=
  { successful := saveSucceeds 3 attempts
    errorLogged := !saveSucceeds 3 attempts
    returned := evtInfo }

/-- Count held in `self.dirty_feeds` for a key (the events in the laundry
always have one). -/
def lookupCount (dirty_feeds : List (String × Nat)) (k : String) : Nat :=
  ((dirty_feeds.find? (fun kv => kv.1 == k)).map Prod.snd).getD 0

/-- `IndicatorsImporter.get_laundry`: the feed events whose `info` is a key
of `dirty_feeds`, paired with their dirty counts. -/
def get_laundry (feeds : List MISPEvent) (dirty_feeds : List (String × Nat)) :
    List (MISPEvent × Nat) :=
  (feeds.filter (fun f => dirty_feeds.any (fun kv => kv.1 == f.info))).map
    (fun f => (f, lookupCount dirty_feeds f.info))

/-- `IndicatorsImporter.clean_laundry`, sequential model of the save pool:
the list of `event_thread` return values (`saved`).  `attempts` gives, per
event title, the success of its successive `update_event` calls. -/
def clean_laundry (feeds : List MISPEvent) (dirty_feeds : List (String × Nat))
    (attempts : String → List Bool) : List String :=
  (get_laundry feeds dirty_feeds).map
    (fun fd => (event_thread fd.1.info (attempts fd.1.info)).returned)

/-- Python `dict.pop(k)` on an association list (the key is always present
at the call site). -/
def dictPop (d : List (String × Nat)) (k : String) : List (String × Nat) :=
  d.eraseP (fun kv => kv.1 == k)

/-- The per-batch flush of `push_indicators`:
`for cleaned in self.clean_laundry(...): self.dirty_feeds.pop(cleaned)`.
Returns the dirty set left after the flush pass. -/
def flush_pass (feeds : List MISPEvent) (dirty_feeds : List (String × Nat))
    (attempts : String → List Bool) : List (String × Nat) :=
  (clean_laundry feeds dirty_feeds attempts).foldl dictPop dirty_feeds

/-! ## Deduplication index (`attribute_search`, `find_report_indicators`) -/

/-- Per-value detail kept by the dedup index. -/
structure AttrDetail where
  uuid : String
  event_uuid : String
  timestamp : Nat
deriving DecidableEq, Repr

/-- Result of `self.misp.search(controller="attributes", ...)` for one
category: the retrieved `(value, detail)` rows in response order, or a
raised `SSLError`/`ConnectionError`. -/
inductive SearchResult where
  | ok (attrs : List (String × AttrDetail))
  | connError
deriving Repr

/-- Python dict insertion: overwrite an existing key, otherwise append. -/
def dictInsert (m : List (String × AttrDetail)) (kv : String × AttrDetail) :
    List (String × AttrDetail) :=
  if m.any (fun p => p.1 == kv.1) then m.map (fun p => if p.1 == kv.1 then kv else p)
  else m ++ [kv]

/-- Python `dict.update(new)` on association lists. -/
def dictUpdate (m : List (String × AttrDetail)) (new : List (String × AttrDetail)) :
    List (String × AttrDetail) :=
  new.foldl dictInsert m

/-- `IndicatorsImporter.attribute_search`: on success, the comprehension
keyed by attribute value; on `SSLError`/`ConnectionError`, logs a warning
and returns `clean_result`, which is still its initial value `None`. -/
def attribute_search (r : SearchResult) : Option (List (String × AttrDetail)) :=
  match r with
  | SearchResult.ok attrs => some (dictUpdate [] attrs)
  | SearchResult.connError => none

/-- Outcome of building the dedup index. -/
inductive BuildResult where
  | built (existing_indicators : List (String × AttrDetail))
  | typeError
deriving Repr

/-- The `for fut in futures: retrieved_indicators.update(fut.result())`
loop of `find_report_indicators`: `dict.update(None)` raises `TypeError`. -/
def mergeSearches (acc : List (String × AttrDetail)) :
    List (Option (List (String × AttrDetail))) → Option (List (String × AttrDetail))
  | [] => some acc
  | none :: _ => none
  | some d :: rest => mergeSearches (dictUpdate acc d) rest

/-- `IndicatorsImporter.find_report_indicators`: merge the per-category
searches, then keep the entries whose `event_uuid` is not one of the feed
event uuids (`non_report_ids`). -/
def find_report_indicators (searches : List SearchResult) (non_report_ids : List String) :
    BuildResult :=
  match mergeSearches [] (searches.map attribute_search) with
  | none => BuildResult.typeError
  | some merged =>
      BuildResult.built (merged.filter (fun kv => !(non_report_ids.contains kv.2.event_uuid)))

/-! ## Indicator worker (`indicator_thread`, `add_indicator_event`,
`process_indicator_batch`) -/

/-- What `helper.gen_indicator` produced for an indicator: a `MISPObject`,
a `MISPAttribute` of the given destination type, or a falsy value
("Couldn't generate indicator object ... skipping"). -/
inductive GenOutcome where
  | obj
  | attr (atype : String)
  | failed
deriving DecidableEq, Repr

/-- Run-wide inputs of the indicator worker.  The last four fields stand
for code of this repository that is not among the analysed sources.
Modelled from the spec: `knownTypes` is the member-name set of the
`IndicatorType` enum (`indicator_type.py`, spec 4.4 step 1 type-to-category
mapping); `gen` is `helper.gen_indicator` (spec 4.4 step 5 type-specific
mapping); `famKey` is the family-container title resolved by
`indicator_family.find_or_create_family_event` (spec 4.3 create-if-absent
keyed by title); `remote_timestamp` is the destination-side attribute
timestamp fetched by `misp.get_attribute` in `add_sighting_to_attribute`. -/
structure Ctx where
  indicator_type_title : String
  log_duplicates_as_sightings : Bool
  knownTypes : List String
  gen : Indicator → GenOutcome
  famKey : Indicator → Option String
  remote_timestamp : String → Nat

/-- Mutable importer state shared by the workers, threaded sequentially. -/
structure WorkerState where
  feeds : List MISPEvent
  dirty_feeds : List (String × Nat)
  skipped : Nat
  sightings : List (String × String)
  existing_indicators : List String
deriving DecidableEq, Repr

/-- Python exceptions raised by the worker code paths. -/
inductive PyError where
  | keyError
  | attributeError
  | unboundLocalError
deriving DecidableEq, Repr

/-- Result of one worker call: a returned value with the updated state, or
a raised exception (the raising paths precede any state mutation). -/
inductive WorkerResult (α : Type) where
  | ok (val : α) (st : WorkerState)
  | exn (e : PyError)
deriving DecidableEq, Repr

/-- The state a worker call left behind: the returned state on success,
the untouched input state when the call raised (the raising paths of
`add_indicator_event` and `indicator_thread` precede any mutation). -/
def resultState {α : Type} (r : WorkerResult α) (fallback : WorkerState) : WorkerState :=
  match r with
  | WorkerResult.ok _ s => s
  | WorkerResult.exn _ => fallback

/-- Python `str.upper()` (character-wise uppercase). -/
def pyUpper (s : String) : String :=
  { data := s.data.map Char.toUpper }

/-- Python truthiness of an optional string (`None` and `""` are falsy). -/
def truthy : Option String → Bool
  | none => false
  | some s => s != ""

/-- Python truthiness of an optional integer (`None` and `0` are falsy). -/
def truthyNat : Option Nat → Bool
  | none => false
  | some n => n != 0

/-- Python `indicator_value in attribute_list` for the optional value
over a value-keyed dict (`None` is never a key). -/
def optContains (l : List String) : Option String → Bool
  | some v => l.contains v
  | none => false

/-- `cs_search = f"{...indicator_type_title...} {itype}"`. -/
def catSearch (ctx : Ctx) (itype : String) : String :=
  ctx.indicator_type_title ++ " " ++ itype

/-- First event of the registry with the given title
(`[e for e in self.feeds if cs_search == e.info]`, first element). -/
def findEvent (feeds : List MISPEvent) (info : String) : Option MISPEvent :=
  feeds.find? (fun e => e.info == info)

/-- The attribute values already attached to an event
(`{iv.value: iv.uuid for iv in event.attributes}`, key set). -/
def attrValues (e : MISPEvent) : List String :=
  e.attributes.map MAttribute.value

/-- `evt.add_attribute(type, value, ...)`: append one attribute. -/
def appendAttr (atype v : String) (e : MISPEvent) : MISPEvent :=
  { e with attributes := e.attributes ++ [{ type := atype, value := v }] }

/-- In-place mutation of the first registry event with the given title. -/
def updateFirst (info : String) (f : MISPEvent → MISPEvent) :
    List MISPEvent → List MISPEvent
  | [] => []
  | e :: rest => if e.info == info then f e :: rest else e :: updateFirst info f rest

/-- Tail of `process_attribute_tags`: create or increment the event's
entry in `self.dirty_feeds`. -/
def markDirty (dirty_feeds : List (String × Nat)) (info : String) : List (String × Nat) :=
  if dirty_feeds.any (fun kv => kv.1 == info) then
    dirty_feeds.map (fun kv => if kv.1 == info then (kv.1, kv.2 + 1) else kv)
  else dirty_feeds ++ [(info, 1)]

/-- The `first_seen`/`last_seen` dictionary of
`IndicatorsImporter.calculate_seen` (the `org` entry is omitted). -/
structure SeenDict where
  first_seen : Option Nat
  last_seen : Option Nat
deriving DecidableEq, Repr

/-- `IndicatorsImporter.calculate_seen`. -/
def calculate_seen (ind : Indicator) : SeenDict :=
  { first_seen := if truthyNat ind.published_date then ind.published_date else none
    last_seen := if truthyNat ind.last_updated then ind.last_updated else none }

/-- `IndicatorsImporter.add_sighting_to_attribute`: emit a sighting when
the new `last_seen` is strictly newer than the destination attribute's
timestamp, otherwise count a skip. -/
def add_sighting_to_attribute (ctx : Ctx) (evt_name : String) (att : String)
    (seen : SeenDict) (st : WorkerState) : WorkerState :=
  if seen.last_seen.getD 0 > ctx.remote_timestamp att then
    { st with sightings := st.sightings ++ [(evt_name, att)] }
  else
    { st with skipped := st.skipped + 1 }

/-- `IndicatorsImporter.add_report_sighting`; `ind_timestamp` is
`int(indicator.get("Attribute", {}).get("timestamp", 0))`, which is 0 for
feed indicators. -/
def add_report_sighting (value : String) (seen : SeenDict) (ind_timestamp : Nat)
    (st : WorkerState) : WorkerState :=
  let last := seen.last_seen.getD 0
  if last != 0 && last != ind_timestamp then
    { st with sightings := st.sightings ++ [("report", value)] }
  else st

/-- `IndicatorsImporter.add_and_tag_attribute` together with
`process_attribute_tags`: append the attribute to the event
(`evt.add_attribute`), tag it, and mark the event dirty; returns 1. -/
def add_and_tag_attribute (atype v : String) (evtInfo : String) (st : WorkerState) :
    WorkerState × Nat :=
  ({ st with
      feeds := updateFirst evtInfo (appendAttr atype v) st.feeds
      dirty_feeds := markDirty st.dirty_feeds evtInfo }, 1)

/-- `find_or_create_family_event`, state effect on the registry.
Modelled from the spec (4.3): the family container, keyed by its resolved
title, is created (empty) when absent; creation is the only registry
mutation.  `famKey ind = none` means the indicator carries no family
metadata and no family event is involved. -/
def familyCreate (ctx : Ctx) (ind : Indicator) (st : WorkerState) : WorkerState :=
  match ctx.famKey ind with
  | none => st
  | some k =>
      if (findEvent st.feeds k).isSome then st
      else { st with feeds := st.feeds ++ [{ info := k, attributes := [] }] }

/-- The family event returned by `find_or_create_family_event`. -/
def malEventOf (ctx : Ctx) (ind : Indicator) (st1 : WorkerState) : Option MISPEvent :=
  match ctx.famKey ind with
  | none => none
  | some k => findEvent st1.feeds k

/-- The `if event:` block of `add_indicator_event` (lines 556-567): add
the attribute when not a duplicate of the category event, else emit a
sighting when sightings are enabled.  Returns the new state, `feed_result`
and whether `SIGHTED` was set. -/
def feedStage (ctx : Ctx) (event : Option MISPEvent) (evt_dupe : Bool)
    (atype v : String) (seen : SeenDict) (st1 : WorkerState) :
    WorkerState × Nat × Bool :=
  match event with
  | none => (st1, 0, false)
  | some evt =>
      if !evt_dupe then
        ((add_and_tag_attribute atype v evt.info st1).1, 1, false)
      else if ctx.log_duplicates_as_sightings then
        (add_sighting_to_attribute ctx evt.info v seen st1, 0, true)
      else (st1, 0, false)

/-- The `if mal_event:` block of `add_indicator_event` (lines 569-584);
`evt_listed` is `indicator_value in attribute_list` guarding against a
duplicate sighting (line 580).  `check_and_set_threat_level` only adjusts
the event's threat level, which this model does not track. -/
def famStage (ctx : Ctx) (mal_event : Option MISPEvent) (mal_dupe evt_listed : Bool)
    (atype v : String) (seen : SeenDict) (st2 : WorkerState) :
    WorkerState × Nat × Bool :=
  match mal_event with
  | none => (st2, 0, false)
  | some mev =>
      if !mal_dupe then
        ((add_and_tag_attribute atype v mev.info st2).1, 1, false)
      else if !evt_listed && ctx.log_duplicates_as_sightings then
        (add_sighting_to_attribute ctx mev.info v seen st2, 0, true)
      else (st2, 0, false)

/-- Lines 586-593 of `add_indicator_event`: the report sighting for
values pre-existing in the dedup index. -/
def reportStage (v : String) (seen : SeenDict) (sighted do_sightings : Bool)
    (st3 : WorkerState) : WorkerState :=
  if !sighted && st3.existing_indicators.contains v && do_sightings then
    add_report_sighting v seen 0 st3
  else st3

/-- `IndicatorsImporter.add_indicator_event`, sequential model.
A missing `type` raises `AttributeError` (`None.upper()`); a type outside
the enum member set raises `KeyError` (`IndicatorType[...]`); both occur on
the first line, before any state mutation, and there is no handler.
The enum member's `.value` string is represented by the member name.
The duplicate flags are computed from the in-memory attribute lists of the
category event and family event before any attribute is added, exactly as
in the source (lines 529-535). -/
def add_indicator_event (ctx : Ctx) (ind : Indicator) (st : WorkerState) :
    WorkerResult (Nat × Nat) :=
  match ind.type with
  | none => WorkerResult.exn PyError.attributeError
  | some tname =>
    if !(ctx.knownTypes.contains (pyUpper tname)) then WorkerResult.exn PyError.keyError
    else
      let cs_search := catSearch ctx (pyUpper tname)
      let event := findEvent st.feeds cs_search
      let st1 := familyCreate ctx ind st
      let mal_event := malEventOf ctx ind st1
      let indicator_value := ind.indicator
      let attribute_list := (event.map attrValues).getD []
      let evt_dupe := optContains attribute_list indicator_value
      let mal_attribute_list := (mal_event.map attrValues).getD []
      let mal_dupe := optContains mal_attribute_list indicator_value
      let do_sightings := ctx.log_duplicates_as_sightings
      if !do_sightings && (mal_dupe && evt_dupe) then
        WorkerResult.ok (0, 0) { st1 with skipped := st1.skipped + 1 }
      else
        match indicator_value with
        | none => WorkerResult.ok (0, 0) st1
        | some v =>
          if v == "" then
            WorkerResult.ok (0, 0) st1
          else
            match ctx.gen ind with
            | GenOutcome.failed => WorkerResult.ok (0, 0) st1
            | GenOutcome.obj => WorkerResult.ok (0, 0) st1
            | GenOutcome.attr atype =>
              let seen := calculate_seen ind
              let fs := feedStage ctx event evt_dupe atype v seen st1
              let ms := famStage ctx mal_event mal_dupe (attribute_list.contains v)
                atype v seen fs.1
              let st4 := reportStage v seen (fs.2.2 || ms.2.2) do_sightings ms.1
              WorkerResult.ok (fs.2.1, ms.2.1) st4

/-- Phase 2 of one pool worker's `add_indicator_event` body (lines 539-605):
the skip/append/sighting logic, as a function of the duplicate flags the
worker computed earlier in lines 529-535.  The source holds the shared lock
only for `find_or_create_family_event` (line 519) and the counters — neither
the flag computation nor the `evt.add_attribute` append inside
`add_and_tag_attribute` (line 497) is synchronized — so by the time this
phase runs, the flags may be stale with respect to the shared registry.
State effect only; the returned counters are irrelevant to the registry. -/
def workerPhase2 (ctx : Ctx) (ind : Indicator) (event mal_event : Option MISPEvent)
    (attribute_list : List String) (evt_dupe mal_dupe : Bool) (st1 : WorkerState) :
    WorkerState :=
  let do_sightings := ctx.log_duplicates_as_sightings
  if !do_sightings && (mal_dupe && evt_dupe) then
    { st1 with skipped := st1.skipped + 1 }
  else
    match ind.indicator with
    | none => st1
    | some v =>
      if v == "" then st1
      else
        match ctx.gen ind with
        | GenOutcome.failed => st1
        | GenOutcome.obj => st1
        | GenOutcome.attr atype =>
          let seen := calculate_seen ind
          let fs := feedStage ctx event evt_dupe atype v seen st1
          let ms := famStage ctx mal_event mal_dupe (attribute_list.contains v)
            atype v seen fs.1
          reportStage v seen (fs.2.2 || ms.2.2) do_sightings ms.1

/-- Two workers of one `process_indicator_batch` pool handling indicators
with the same value, under an interleaving the source permits: both execute
phase 1 (lines 513-535 — event lookup, lock-protected create-if-absent
family resolution, and the duplicate flags read from the shared in-memory
attribute lists) against the same registry state before either executes
phase 2, whose `evt.add_attribute` append is unsynchronized; then the two
phase-2 bodies run one after the other on the shared registry, each driven
by its own, now stale, flags.  Indicators that would raise in phase 1
(covered by C4) or that do not reach phase 2 leave the registry unchanged
on this path. -/
def racedSameValuePair (ctx : Ctx) (ind : Indicator) (st : WorkerState) : WorkerState :=
  match ind.type with
  | none => st
  | some tname =>
    if !(ctx.knownTypes.contains (pyUpper tname)) then st
    else
      let cs_search := catSearch ctx (pyUpper tname)
      let st1 := familyCreate ctx ind (familyCreate ctx ind st)
      let event := findEvent st1.feeds cs_search
      let mal_event := malEventOf ctx ind st1
      let attribute_list := (event.map attrValues).getD []
      let evt_dupe := optContains attribute_list ind.indicator
      let mal_dupe := optContains ((mal_event.map attrValues).getD []) ind.indicator
      let stA := workerPhase2 ctx ind event mal_event attribute_list evt_dupe mal_dupe st1
      workerPhase2 ctx ind event mal_event attribute_list evt_dupe mal_dupe stA

/-- `IndicatorsImporter.indicator_thread`: when the work item's `indicator`
field is falsy the `if iname:` guard skips the body, and the trailing
`return {"feed": feed_return, "fam": fam_return}` reads the never-assigned
locals, raising `UnboundLocalError`.  The `try`/`except` around the body is
commented out in the source, so exceptions from `add_indicator_event`
propagate. -/
def indicator_thread (ctx : Ctx) (ind : Indicator) (st : WorkerState) :
    WorkerResult (Nat × Nat) :=
  if truthy ind.indicator then add_indicator_event ctx ind st
  else WorkerResult.exn PyError.unboundLocalError

/-- Accumulator of a sequential schedule of `process_indicator_batch`'s
pool: all submitted workers run (mutating the shared state); the first
exception any of them raised re-raises at `fut.result()` collection. -/
structure BatchAcc where
  st : WorkerState
  total : Nat
  feed_success : Nat
  feed_failed : Nat
  fam_success : Nat
  fam_failed : Nat
  firstError : Option PyError
deriving DecidableEq, Repr

/-- One worker of the batch pool, with its read-check-append against the
shared state taken atomically.  The source gives no such guarantee — the
duplicate flags (lines 529-535) and the append (line 497) run outside the
lock; `racedSameValuePair` exhibits the interleaving this step hides.  The
step is adequate for schedule-independent facts (an exception raised by a
worker re-raises at collection regardless of ordering) and for the
sequential-schedule reading of a batch. -/
def batchStep (ctx : Ctx) (acc : BatchAcc) (ind : Indicator) : BatchAcc :=
  match indicator_thread ctx ind acc.st with
  | WorkerResult.ok fr st' =>
      { acc with
          st := st'
          total := acc.total + 1
          feed_success := acc.feed_success + (if fr.1 ≠ 0 then 1 else 0)
          feed_failed := acc.feed_failed + (if fr.1 = 0 then 1 else 0)
          fam_success := acc.fam_success + (if fr.2 ≠ 0 then 1 else 0)
          fam_failed := acc.fam_failed + (if fr.2 = 0 then 1 else 0) }
  | WorkerResult.exn e =>
      { acc with
          firstError := match acc.firstError with
            | some e0 => some e0
            | none => some e }

/-- Run every worker of a batch against the shared state, one after the
other: a sequential schedule of the pool. -/
def runBatch (ctx : Ctx) (batch : List Indicator) (st : WorkerState) : BatchAcc :=
  batch.foldl (batchStep ctx)
    { st := st, total := 0, feed_success := 0, feed_failed := 0,
      fam_success := 0, fam_failed := 0, firstError := none }

/-- `IndicatorsImporter.process_indicator_batch`: collect the futures; the
first worker exception re-raises out of the batch (there is no handler on
the path up through `push_indicators`). -/
def process_indicator_batch (ctx : Ctx) (batch : List Indicator) (st : WorkerState) :
    WorkerResult (Nat × Nat × Nat × Nat × Nat) :=
  let acc := runBatch ctx batch st
  match acc.firstError with
  | some e => WorkerResult.exn e
  | none =>
      WorkerResult.ok (acc.total, acc.feed_success, acc.feed_failed,
        acc.fam_success, acc.fam_failed) acc.st

/-- An indicator on which the worker raises instead of mapping: a falsy
`indicator` value (raises `UnboundLocalError` in `indicator_thread`), a
missing `type` (raises `AttributeError`), or a type outside the enum
member set (raises `KeyError`). -/
def badMapping (ctx : Ctx) (ind : Indicator) : Bool :=
  !(truthy ind.indicator) ||
    (match ind.type with
     | none => true
     | some t => !(ctx.knownTypes.contains (pyUpper t)))

/-- A work item whose resolved family-container title collides with the
indicator's own category-container title (the two would alias one shared
event object). -/
def famClash (ctx : Ctx) (ind : Indicator) : Bool :=
  match ctx.famKey ind, ind.type with
  | some k, some t => k == catSearch ctx (pyUpper t)
  | _, _ => false

/-! ## Concrete fixtures used by the closed witness theorems -/

/-- Worker context fixture: `DOMAIN` is the only known indicator type, no
malware-family metadata, duplicates counted as skips. -/
def ctxFix : Ctx :=
  { indicator_type_title := "Indicator Type:"
    log_duplicates_as_sightings := false
    knownTypes := ["DOMAIN"]
    gen := fun _ => GenOutcome.attr "domain"
    famKey := fun _ => none
    remote_timestamp := fun _ => 0 }

/-- Initial state fixture: one empty category container, nothing dirty. -/
def stFix : WorkerState :=
  { feeds := [{ info := "Indicator Type: DOMAIN", attributes := [] }]
    dirty_feeds := []
    skipped := 0
    sightings := []
    existing_indicators := [] }

/-- The spec's scenario indicator. -/
def evilDomain : Indicator :=
  { type := some "domain", indicator := some "evil.example",
    last_updated := some 1000, published_date := none, malware_family := none }

/-- A work item with an unknown type. -/
def bogusType : Indicator :=
  { type := some "bogus", indicator := some "x",
    last_updated := some 1, published_date := none, malware_family := none }

/-- A work item with a missing indicator value. -/
def noValue : Indicator :=
  { type := some "domain", indicator := none,
    last_updated := some 1, published_date := none, malware_family := none }

/-- Context fixture with family metadata: every indicator resolves to the
family container titled `Malware Family: EVIL`. -/
def ctxFam : Ctx :=
  { ctxFix with famKey := fun _ => some "Malware Family: EVIL" }

/-- Context fixture with duplicate-sightings enabled. -/
def ctxSight : Ctx :=
  { ctxFix with log_duplicates_as_sightings := true }

/-- State fixture: both the category container and the family container
already hold the scenario value. -/
def stBothDup : WorkerState :=
  { feeds := [{ info := "Indicator Type: DOMAIN",
                attributes := [{ type := "domain", value := "evil.example" }] },
              { info := "Malware Family: EVIL",
                attributes := [{ type := "domain", value := "evil.example" }] }]
    dirty_feeds := []
    skipped := 0
    sightings := []
    existing_indicators := [] }

/-- State fixture: only the category container holds the scenario value. -/
def stOneDup : WorkerState :=
  { feeds := [{ info := "Indicator Type: DOMAIN",
                attributes := [{ type := "domain", value := "evil.example" }] }]
    dirty_feeds := []
    skipped := 0
    sightings := []
    existing_indicators := [] }

/-- The state after the scenario indicator has been processed once,
sequentially, from `stFix`. -/
def stAfterOne : WorkerState :=
  resultState (add_indicator_event ctxFix evilDomain stFix) stFix

/-- The category event holding the scenario value twice. -/
def doubledEvent : MISPEvent :=
  { info := "Indicator Type: DOMAIN",
    attributes := [{ type := "domain", value := "evil.example" },
                   { type := "domain", value := "evil.example" }] }

/-- The category event holding the scenario value once. -/
def singleEvent : MISPEvent :=
  { info := "Indicator Type: DOMAIN",
    attributes := [{ type := "domain", value := "evil.example" }] }

/-- Page fixture for the checkpoint-monotonicity witness. -/
def pageOne : List Indicator :=
  [{ type := some "domain", indicator := some "a",
     last_updated := some 1, published_date := none, malware_family := none }]

/-- Second page fixture for the checkpoint-monotonicity witness. -/
def pageTwo : List Indicator :=
  [{ type := some "domain", indicator := some "b",
     last_updated := some 2, published_date := none, malware_family := none }]

/-! ## Helper lemmas on the retry loop -/

/-- The retry loop never lets an exception escape: the terminal
`raise PyMISPError` lies inside its own `try`, the `except` clause's final
`raise e` is commented out, so every path either returns a response or
falls through to `None`. -/
theorem retryFrom_ne_raised (l : List AttemptResult) :
    ∀ i : Nat, retryFrom i l ≠ RetryOutcome.raised := by
  induction l with
  | nil => intro i; simp [retryFrom]
  | cons a rest ih =>
      intro i
      cases a with
      | resp c =>
          cases c with
          | none => simp [retryFrom]
          | some v =>
              simp only [retryFrom]
              split
              · simp
              · split
                · exact ih (i + 1)
                · simp
      | exn =>
          simp only [retryFrom]
          split
          · exact ih (i + 1)
          · simp

/-- A failing attempt with retries left moves the loop to the next attempt. -/
theorem retryFrom_failing_step (i : Nat) (a : AttemptResult) (rest : List AttemptResult)
    (ha : isFailing a = true) (hi : i + 1 < MAX_RETRIES) :
    retryFrom i (a :: rest) = retryFrom (i + 1) rest := by
  cases a with
  | exn => simp [retryFrom, hi]
  | resp c =>
      cases c with
      | none => simp [isFailing] at ha
      | some v =>
          have hv : v ≠ 404 := by simpa [isFailing] using ha
          simp [retryFrom, hv, hi]

/-- A failing attempt with no retries left makes the call return `None`. -/
theorem retryFrom_failing_last (i : Nat) (a : AttemptResult) (rest : List AttemptResult)
    (ha : isFailing a = true) (hi : ¬ i + 1 < MAX_RETRIES) :
    retryFrom i (a :: rest) = RetryOutcome.retNone := by
  cases a with
  | exn => simp [retryFrom, hi]
  | resp c =>
      cases c with
      | none => simp [isFailing] at ha
      | some v =>
          have hv : v ≠ 404 := by simpa [isFailing] using ha
          simp [retryFrom, hv, hi]

/-- A 404 error payload returns immediately on any attempt. -/
theorem retryFrom_notFound (i : Nat) (rest : List AttemptResult) :
    retryFrom i (AttemptResult.resp (some 404) :: rest) = RetryOutcome.ret (some 404) := by
  simp [retryFrom]

/-! ## Claim theorems -/

/-- C2 counterexample: a call whose 3 attempts all fail — whether with
non-404 application error payloads or with transport-level exceptions —
returns Python `None` silently; no terminal error reaches the caller. -/
theorem retry_exhaustion_counterexample :
    mispRetry [AttemptResult.resp (some 500), AttemptResult.resp (some 500),
        AttemptResult.resp (some 500)] = RetryOutcome.retNone ∧
    mispRetry [AttemptResult.exn, AttemptResult.exn, AttemptResult.exn] = RetryOutcome.retNone ∧
    mispRetry [AttemptResult.exn, AttemptResult.exn, AttemptResult.exn] ≠
      RetryOutcome.raised := by
  decide

/-- C2 (amended): when all 3 attempts of a `MISP._retry` call fail, the
call logs and returns `None` silently — no exception ever escapes the
retry loop — while a response carrying the 404 "not found" code is
returned as a valid terminal result on whichever attempt it occurs. -/
theorem retry_exhaustion_silent (a b c : AttemptResult) (rest : List AttemptResult)
    (ha : isFailing a = true) (hb : isFailing b = true) (hc : isFailing c = true) :
    mispRetry (a :: b :: c :: rest) = RetryOutcome.retNone ∧
    (∀ l : List AttemptResult, mispRetry l ≠ RetryOutcome.raised) ∧
    mispRetry (AttemptResult.resp (some 404) :: rest) = RetryOutcome.ret (some 404) ∧
    mispRetry (a :: AttemptResult.resp (some 404) :: rest) = RetryOutcome.ret (some 404) ∧
    mispRetry (a :: b :: AttemptResult.resp (some 404) :: rest) =
      RetryOutcome.ret (some 404) := by
  refine ⟨?_, fun l => retryFrom_ne_raised l 0, retryFrom_notFound 0 rest, ?_, ?_⟩
  · rw [mispRetry, retryFrom_failing_step 0 a _ ha (by decide),
      retryFrom_failing_step 1 b _ hb (by decide),
      retryFrom_failing_last 2 c _ hc (by decide)]
  · rw [mispRetry, retryFrom_failing_step 0 a _ ha (by decide)]
    exact retryFrom_notFound 1 _
  · rw [mispRetry, retryFrom_failing_step 0 a _ ha (by decide),
      retryFrom_failing_step 1 b _ hb (by decide)]
    exact retryFrom_notFound 2 _

/-- C2 witness: the amended theorem evaluated on a concrete attempt
sequence (exception, 500 error, exception). -/
theorem retry_exhaustion_silent_witness :
    (isFailing AttemptResult.exn = true ∧
      isFailing (AttemptResult.resp (some 500)) = true) ∧
    (mispRetry [AttemptResult.exn, AttemptResult.resp (some 500), AttemptResult.exn] =
        RetryOutcome.retNone ∧
      (∀ l : List AttemptResult, mispRetry l ≠ RetryOutcome.raised) ∧
      mispRetry [AttemptResult.resp (some 404)] = RetryOutcome.ret (some 404) ∧
      mispRetry [AttemptResult.exn, AttemptResult.resp (some 404)] =
        RetryOutcome.ret (some 404) ∧
      mispRetry [AttemptResult.exn, AttemptResult.resp (some 500),
          AttemptResult.resp (some 404)] = RetryOutcome.ret (some 404)) :=
  ⟨⟨by decide, by decide⟩,
    retry_exhaustion_silent AttemptResult.exn (AttemptResult.resp (some 500))
      AttemptResult.exn [] (by decide) (by decide) (by decide)⟩

/-- C8: the effective indicator batch size is the configured
`ind_attribute_batch_size` (default 500) clamped to `[50, 5000]`;
configuring 10 yields 50 and configuring 100000 yields 5000. -/
theorem ind_attribute_batch_size_clamp :
    (∀ v : Int, IND_BATCH_SIZE (some v) = max 50 (min 5000 v)) ∧
    IND_BATCH_SIZE none = 500 ∧
    IND_BATCH_SIZE (some 10) = 50 ∧
    IND_BATCH_SIZE (some 100000) = 5000 ∧
    ∀ v : Option Int, 50 ≤ IND_BATCH_SIZE v ∧ IND_BATCH_SIZE v ≤ 5000 := by
  refine ⟨fun v => rfl, rfl, by decide, by decide, fun v => ⟨le_max_left _ _, ?_⟩⟩
  exact max_le (by norm_num) (min_le_left _ _)

/-- C9: a page in which no indicator carries a non-null `last_updated`
(an empty page included) makes the checkpoint generator in
`push_indicators` raise `StopIteration`: no checkpoint is written for
that page and the page loop aborts — there is no fallback timestamp. -/
theorem push_indicators_stopiteration (page : List Indicator)
    (rest : List (List Indicator)) (t : Nat)
    (h : ∀ i ∈ page, i.last_updated = none) :
    pageCheckpoint page = none ∧
    processIndicators t (page :: rest) = { committed := [], aborted := true } := by
  have hcp : pageCheckpoint page = none := by
    unfold pageCheckpoint
    rw [List.head?_eq_none_iff, List.filterMap_eq_nil_iff]
    intro a ha
    exact h a (List.mem_reverse.mp ha)
  exact ⟨hcp, by simp [processIndicators, runPages, hcp]⟩

/-- C9 witness: the theorem evaluated on the empty page. -/
theorem push_indicators_stopiteration_witness :
    (∀ i ∈ ([] : List Indicator), i.last_updated = none) ∧
    (pageCheckpoint ([] : List Indicator) = none ∧
      processIndicators 5 [[]] = { committed := [], aborted := true }) :=
  ⟨by simp, push_indicators_stopiteration [] [] 5 (by simp)⟩

/-- C7 counterexample: a run whose source returns a single empty page has
zero indicators in total, yet no checkpoint at all is committed — the
page's checkpoint computation raises `StopIteration` before the
zero-count fallback commit is reached. -/
theorem empty_page_checkpoint_counterexample :
    pagesCount [([] : List Indicator)] = 0 ∧
    processIndicators 42 [[]] = { committed := [], aborted := true } ∧
    (processIndicators 42 [[]]).committed ≠ [42] := by
  refine ⟨rfl, rfl, by decide⟩

/-- C7 (amended): the pre-fetch timestamp is committed for a
zero-indicator run only when the source paginator yields no pages at all;
if the zero indicators arrive as one or more empty pages, the run instead
raises `StopIteration` and commits nothing. -/
theorem zero_indicators_prefetch_checkpoint (t : Nat) (pages : List (List Indicator))
    (h : pagesCount pages = 0) :
    (pages = [] → processIndicators t pages = { committed := [t], aborted := false }) ∧
    (pages ≠ [] →
      (processIndicators t pages).committed = [] ∧
        (processIndicators t pages).aborted = true) := by
  constructor
  · intro he; subst he; rfl
  · intro hne
    cases pages with
    | nil => exact absurd rfl hne
    | cons p rest =>
        have hp : p = [] := by
          simp [pagesCount] at h
          exact h.1
        subst hp
        constructor <;> simp [processIndicators, runPages, pageCheckpoint]

/-- C7 witness: the amended theorem evaluated on a pageless run. -/
theorem zero_indicators_prefetch_checkpoint_witness :
    pagesCount ([] : List (List Indicator)) = 0 ∧
    processIndicators 7 ([] : List (List Indicator)) =
      { committed := [7], aborted := false } :=
  ⟨rfl, (zero_indicators_prefetch_checkpoint 7 [] rfl).1 rfl⟩

/-- C1 (code bug): a dirty container whose save fails on all 3 attempts
does log an error and the run continues, but the flush pass still removes
it from the dirty set: `event_thread` returns `evt.info` whether or not
the save succeeded, and `push_indicators` pops every returned name. -/
theorem failed_save_removed_from_dirty :
    (event_thread "a" [false, false, false]).successful = false ∧
    (event_thread "a" [false, false, false]).errorLogged = true ∧
    clean_laundry [{ info := "a", attributes := [] }] [("a", 1)]
        (fun _ => [false, false, false]) = ["a"] ∧
    flush_pass [{ info := "a", attributes := [] }] [("a", 1)]
        (fun _ => [false, false, false]) = [] :=
  ⟨rfl, rfl, rfl, rfl⟩

/-- C3 (code bug): a category search that hits a connection error returns
`None` (after logging its warning), and `find_report_indicators` then
raises `TypeError` in `retrieved_indicators.update(None)` — a hard failure
of the dedup index build instead of a skipped category. -/
theorem failed_category_search_typeerror :
    attribute_search SearchResult.connError = none ∧
    find_report_indicators
        [SearchResult.ok [("v", { uuid := "u", event_uuid := "e", timestamp := 0 })],
          SearchResult.connError] [] = BuildResult.typeError :=
  ⟨rfl, rfl⟩

/-- C10: a work item whose `indicator` field is missing or falsy makes
`indicator_thread` raise `UnboundLocalError` when building its return
value — it is not skipped with a log message at the worker boundary. -/
theorem missing_indicator_unbound_local (ctx : Ctx) (ind : Indicator) (st : WorkerState)
    (h : truthy ind.indicator = false) :
    indicator_thread ctx ind st = WorkerResult.exn PyError.unboundLocalError := by
  unfold indicator_thread
  rw [h]
  rfl

/-- The per-page checkpoint is the last non-null `last_updated` value of
the page: scanning the reversed page for the first hit is scanning the
page's value list from its end. -/
theorem pageCheckpoint_eq_getLast (page : List Indicator) :
    pageCheckpoint page = (lastUpdatedVals page).getLast? := by
  simp [pageCheckpoint, lastUpdatedVals]

/-- A nonempty commit list starts with the first page's checkpoint. -/
theorem runCommits_head (pages : List (List Indicator)) (u : Nat)
    (h : (runCommits pages).head? = some u) :
    ∃ p rest, pages = p :: rest ∧ pageCheckpoint p = some u := by
  cases pages with
  | nil => simp [runCommits, runPages] at h
  | cons p rest =>
      cases hcp : pageCheckpoint p with
      | none => simp [runCommits, runPages, hcp] at h
      | some v =>
          refine ⟨p, rest, rfl, ?_⟩
          simp [runCommits, runPages, hcp] at h
          rw [hcp, h]

/-- C6: when the non-null `last_updated` values appearing across a feed's
pages are non-decreasing, the successive per-page checkpoint commits are
non-decreasing, and each committed page checkpoint is the last non-null
`last_updated` value found scanning that page from its end. -/
theorem checkpoint_monotone (pages : List (List Indicator))
    (hs : List.Pairwise (· ≤ ·) (joinedVals pages)) :
    List.Chain' (· ≤ ·) (runCommits pages) ∧
    ∀ p ∈ pages, pageCheckpoint p = (lastUpdatedVals p).getLast? := by
  refine ⟨?_, fun p _ => pageCheckpoint_eq_getLast p⟩
  induction pages with
  | nil => simp [runCommits, runPages]
  | cons p rest ih =>
      rw [joinedVals, List.pairwise_append] at hs
      obtain ⟨h1, h2, h3⟩ := hs
      cases hcp : pageCheckpoint p with
      | none => simp [runCommits, runPages, hcp]
      | some t =>
          have hstep : runCommits (p :: rest) = t :: runCommits rest := by
            simp [runCommits, runPages, hcp]
          rw [hstep, List.chain'_cons']
          refine ⟨?_, ih h2⟩
          intro u hu
          obtain ⟨q, rest', hre, hq⟩ := runCommits_head rest u (by simpa using hu)
          have ht : t ∈ lastUpdatedVals p := by
            have hgl := pageCheckpoint_eq_getLast p
            rw [hcp] at hgl
            exact List.mem_of_getLast?_eq_some hgl.symm
          have hu2 : u ∈ joinedVals rest := by
            rw [hre, joinedVals]
            have hgl := pageCheckpoint_eq_getLast q
            rw [hq] at hgl
            exact List.mem_append_left _ (List.mem_of_getLast?_eq_some hgl.symm)
          exact h3 t ht u hu2

/-- C6 witness: the theorem evaluated on two concrete one-indicator pages
with `last_updated` values 1 and 2. -/
theorem checkpoint_monotone_witness :
    List.Pairwise (· ≤ ·) (joinedVals [pageOne, pageTwo]) ∧
    (List.Chain' (· ≤ ·) (runCommits [pageOne, pageTwo]) ∧
      ∀ p ∈ [pageOne, pageTwo], pageCheckpoint p = (lastUpdatedVals p).getLast?) :=
  ⟨by decide, checkpoint_monotone [pageOne, pageTwo] (by decide)⟩

/-- C10 witness: the theorem evaluated on a concrete valueless item. -/
theorem missing_indicator_unbound_local_witness :
    truthy noValue.indicator = false ∧
    indicator_thread ctxFix noValue stFix = WorkerResult.exn PyError.unboundLocalError :=
  ⟨rfl, missing_indicator_unbound_local ctxFix noValue stFix rfl⟩

/-! ## Worker abort lemmas (C4) -/

/-- A bad-mapping work item makes its worker raise. -/
theorem indicator_thread_bad (ctx : Ctx) (ind : Indicator) (st : WorkerState)
    (h : badMapping ctx ind = true) :
    ∃ e, indicator_thread ctx ind st = WorkerResult.exn e := by
  unfold badMapping at h
  cases htr : truthy ind.indicator with
  | false =>
      exact ⟨PyError.unboundLocalError, by simp [indicator_thread, htr]⟩
  | true =>
      rw [htr] at h
      simp only [Bool.not_true, Bool.false_or] at h
      cases hty : ind.type with
      | none =>
          exact ⟨PyError.attributeError, by simp [indicator_thread, htr, add_indicator_event, hty]⟩
      | some t =>
          rw [hty] at h
          simp at h
          exact ⟨PyError.keyError, by simp [indicator_thread, htr, add_indicator_event, hty, h]⟩

/-- Once a worker has raised, later workers of the batch cannot clear the
pending exception. -/
theorem batchStep_firstError_mono (ctx : Ctx) (acc : BatchAcc) (ind : Indicator)
    (h : acc.firstError.isSome = true) :
    (batchStep ctx acc ind).firstError.isSome = true := by
  unfold batchStep
  split
  · simpa using h
  · cases hfe : acc.firstError with
    | none => simp [hfe]
    | some e0 => simp [hfe]

/-- A bad-mapping work item leaves the batch with a pending exception. -/
theorem batchStep_bad_sets_error (ctx : Ctx) (acc : BatchAcc) (ind : Indicator)
    (h : badMapping ctx ind = true) :
    (batchStep ctx acc ind).firstError.isSome = true := by
  obtain ⟨e, he⟩ := indicator_thread_bad ctx ind acc.st h
  unfold batchStep
  rw [he]
  cases hfe : acc.firstError with
  | none => simp [hfe]
  | some e0 => simp [hfe]

/-- The pending exception survives the rest of the fold. -/
theorem foldl_firstError_mono (ctx : Ctx) (l : List Indicator) (acc : BatchAcc)
    (h : acc.firstError.isSome = true) :
    (l.foldl (batchStep ctx) acc).firstError.isSome = true := by
  induction l generalizing acc with
  | nil => simpa using h
  | cons a rest ih => exact ih _ (batchStep_firstError_mono ctx acc a h)

/-- A batch containing a bad-mapping item ends with a pending exception. -/
theorem foldl_bad_sets_error (ctx : Ctx) (l : List Indicator) (acc : BatchAcc)
    (h : ∃ ind ∈ l, badMapping ctx ind = true) :
    (l.foldl (batchStep ctx) acc).firstError.isSome = true := by
  induction l generalizing acc with
  | nil => simp at h
  | cons a rest ih =>
      obtain ⟨ind, hmem, hbad⟩ := h
      rcases List.mem_cons.mp hmem with h1 | h2
      · subst h1
        exact foldl_firstError_mono ctx rest _ (batchStep_bad_sets_error ctx acc ind hbad)
      · exact ih _ ⟨ind, h2, hbad⟩

/-- C4 counterexample: a batch holding an unknown-type indicator does not
complete: the worker's `KeyError` from the enum lookup re-raises at result
collection and aborts the whole batch (the source's per-indicator
`try`/`except` is commented out), instead of the item being logged and
skipped. -/
theorem unknown_type_aborts_batch_counterexample :
    process_indicator_batch ctxFix [bogusType, evilDomain] stFix =
      WorkerResult.exn PyError.keyError := by
  rfl

/-- C4 (amended): an indicator with an unknown type (`KeyError` from
`IndicatorType[...]`), a missing type (`AttributeError` on
`None.upper()`), or a missing/falsy value (`UnboundLocalError` in
`indicator_thread`) raises an uncaught exception, and
`process_indicator_batch` re-raises it instead of returning its counts:
the batch is aborted, not continued. -/
theorem bad_indicator_aborts_batch (ctx : Ctx) (batch : List Indicator) (st : WorkerState)
    (h : ∃ ind ∈ batch, badMapping ctx ind = true) :
    ∃ e, process_indicator_batch ctx batch st = WorkerResult.exn e := by
  have hs : (runBatch ctx batch st).firstError.isSome = true :=
    foldl_bad_sets_error ctx batch _ h
  simp only [process_indicator_batch]
  cases hfe : (runBatch ctx batch st).firstError with
  | none => rw [hfe] at hs; simp at hs
  | some e => exact ⟨e, rfl⟩

/-- C4 witness: the amended theorem evaluated on a concrete batch holding
an unknown-type item. -/
theorem bad_indicator_aborts_batch_witness :
    (∃ ind ∈ [bogusType, evilDomain], badMapping ctxFix ind = true) ∧
    ∃ e, process_indicator_batch ctxFix [bogusType, evilDomain] stFix =
      WorkerResult.exn e :=
  ⟨⟨bogusType, by decide⟩,
    bad_indicator_aborts_batch ctxFix [bogusType, evilDomain] stFix
      ⟨bogusType, by decide⟩⟩

/-! ## Attribute-uniqueness lemmas (C5) -/

/-- Bridge from the worker's `contains` checks to membership. -/
theorem contains_false_not_mem {l : List String} {v : String}
    (h : l.contains v = false) : v ∉ l := by
  intro hm
  have h2 : l.contains v = true :=
    List.contains_iff_exists_mem_beq.mpr ⟨v, hm, by simp⟩
  rw [h] at h2
  cases h2

/-- Unfolding `findEvent` over a cons cell. -/
theorem findEvent_cons (e : MISPEvent) (rest : List MISPEvent) (k : String) :
    findEvent (e :: rest) k = if e.info == k then some e else findEvent rest k := by
  cases h : e.info == k with
  | true => simp [findEvent, h]
  | false => simp [findEvent, h]

/-- A found event carries the title it was looked up by. -/
theorem findEvent_info {feeds : List MISPEvent} {k : String} {e : MISPEvent}
    (h : findEvent feeds k = some e) : e.info = k := by
  have := List.find?_some h
  simpa using this

/-- A successful lookup is unaffected by appending events. -/
theorem findEvent_append_of_some {feeds : List MISPEvent} {k : String} {e : MISPEvent}
    (l : List MISPEvent) (h : findEvent feeds k = some e) :
    findEvent (feeds ++ l) k = some e := by
  unfold findEvent at h ⊢
  rw [List.find?_append, h]
  rfl

/-- `updateFirst` on an absent title is the identity. -/
theorem updateFirst_of_findEvent_none (feeds : List MISPEvent) (info : String)
    (f : MISPEvent → MISPEvent) (h : findEvent feeds info = none) :
    updateFirst info f feeds = feeds := by
  induction feeds with
  | nil => rfl
  | cons e rest ih =>
      rw [findEvent_cons] at h
      cases he : e.info == info with
      | true => rw [he] at h; simp at h
      | false =>
          rw [he] at h
          simp only [Bool.false_eq_true, if_false] at h
          unfold updateFirst
          rw [he]
          simp [ih h]

/-- `evt.add_attribute` does not change the event title. -/
theorem appendAttr_info (atype v : String) (e : MISPEvent) :
    (appendAttr atype v e).info = e.info := rfl

/-- The value list after `evt.add_attribute`. -/
theorem attrValues_appendAttr (atype v : String) (e : MISPEvent) :
    attrValues (appendAttr atype v e) = attrValues e ++ [v] := by
  simp [attrValues, appendAttr]

/-- Lookups for a different title see through `updateFirst` with a
title-preserving mutation. -/
theorem findEvent_updateFirst_ne (feeds : List MISPEvent) (info k : String)
    (f : MISPEvent → MISPEvent) (hk : k ≠ info) (hf : ∀ e, (f e).info = e.info) :
    findEvent (updateFirst info f feeds) k = findEvent feeds k := by
  induction feeds with
  | nil => rfl
  | cons e rest ih =>
      unfold updateFirst
      by_cases he : (e.info == info) = true
      · rw [if_pos he]
        have heq : e.info = info := by simpa using he
        have hek : (e.info == k) = false := by
          simp only [beq_eq_false_iff_ne]
          rw [heq]
          exact hk.symm
        have hfk : ((f e).info == k) = false := by rw [hf e]; exact hek
        rw [findEvent_cons, findEvent_cons, hek, hfk]
        simp
      · rw [if_neg he]
        rw [findEvent_cons, findEvent_cons, ih]

/-- Appending an attribute value below the first event of a given title
preserves per-event value uniqueness, provided the appended value is
absent from that event. -/
theorem inv_updateFirst_append (feeds : List MISPEvent) (info atype v : String)
    (h : ∀ e ∈ feeds, (attrValues e).Nodup)
    (hv : ∀ e0, findEvent feeds info = some e0 → v ∉ attrValues e0) :
    ∀ e ∈ updateFirst info (appendAttr atype v) feeds, (attrValues e).Nodup := by
  induction feeds with
  | nil => intro e he; simp [updateFirst] at he
  | cons e0 rest ih =>
      intro e he
      unfold updateFirst at he
      by_cases hinfo : (e0.info == info) = true
      · rw [if_pos hinfo] at he
        rcases List.mem_cons.mp he with h1 | h2
        · subst h1
          have hfind : findEvent (e0 :: rest) info = some e0 := by
            rw [findEvent_cons, if_pos hinfo]
          have hnm := hv e0 hfind
          have hnodup := h e0 (List.mem_cons_self _ _)
          rw [attrValues_appendAttr, List.nodup_append]
          refine ⟨hnodup, List.nodup_singleton v, ?_⟩
          intro a ha hb
          rw [List.mem_singleton] at hb
          subst hb
          exact hnm ha
        · exact h e (List.mem_cons_of_mem _ h2)
      · rw [if_neg hinfo] at he
        rcases List.mem_cons.mp he with h1 | h2
        · subst h1
          exact h e (List.mem_cons_self _ _)
        · refine ih (fun x hx => h x (List.mem_cons_of_mem _ hx)) ?_ e h2
          intro e1 he1
          apply hv e1
          rw [findEvent_cons, if_neg hinfo]
          exact he1

/-- The guarded attribute append of the worker: when the duplicate flag
computed from the found event's own value list is false, value uniqueness
is preserved. -/
theorem inv_guarded_add (feeds : List MISPEvent) (info atype v : String)
    (hinv : ∀ e ∈ feeds, (attrValues e).Nodup)
    (hdupe : (((findEvent feeds info).map attrValues).getD []).contains v = false) :
    ∀ e ∈ updateFirst info (appendAttr atype v) feeds, (attrValues e).Nodup := by
  cases hf : findEvent feeds info with
  | none => rw [updateFirst_of_findEvent_none feeds info _ hf]; exact hinv
  | some e0 =>
      refine inv_updateFirst_append feeds info atype v hinv ?_
      intro e1 he1
      rw [hf] at he1
      injection he1 with h1
      subst h1
      rw [hf] at hdupe
      simp only [Option.map_some', Option.getD_some] at hdupe
      exact contains_false_not_mem hdupe

/-- Sighting emission never touches the registry. -/
theorem add_sighting_to_attribute_feeds (ctx : Ctx) (n a : String) (seen : SeenDict)
    (st : WorkerState) : (add_sighting_to_attribute ctx n a seen st).feeds = st.feeds := by
  unfold add_sighting_to_attribute
  split <;> rfl

/-- Report-sighting emission never touches the registry. -/
theorem add_report_sighting_feeds (v : String) (seen : SeenDict) (ts : Nat)
    (st : WorkerState) : (add_report_sighting v seen ts st).feeds = st.feeds := by
  simp only [add_report_sighting]
  split <;> rfl

/-- The registry after `find_or_create_family_event`: unchanged, or one
fresh empty family event appended. -/
theorem familyCreate_feeds (ctx : Ctx) (ind : Indicator) (st : WorkerState) :
    (familyCreate ctx ind st).feeds = st.feeds ∨
    ∃ k, (familyCreate ctx ind st).feeds = st.feeds ++ [{ info := k, attributes := [] }] := by
  cases hfk : ctx.famKey ind with
  | none => exact Or.inl (by simp [familyCreate, hfk])
  | some k =>
      cases hse : (findEvent st.feeds k).isSome with
      | true => exact Or.inl (by simp [familyCreate, hfk, hse])
      | false => exact Or.inr ⟨k, by simp [familyCreate, hfk, hse]⟩

/-- Family-event creation preserves per-event value uniqueness. -/
theorem familyCreate_inv (ctx : Ctx) (ind : Indicator) (st : WorkerState)
    (h : ∀ e ∈ st.feeds, (attrValues e).Nodup) :
    ∀ e ∈ (familyCreate ctx ind st).feeds, (attrValues e).Nodup := by
  rcases familyCreate_feeds ctx ind st with hf | ⟨k, hf⟩
  · rw [hf]; exact h
  · rw [hf]
    intro e he
    rcases List.mem_append.mp he with h1 | h2
    · exact h e h1
    · rw [List.mem_singleton] at h2
      subst h2
      simp [attrValues]

/-- Family-event creation never displaces an existing lookup. -/
theorem familyCreate_findEvent (ctx : Ctx) (ind : Indicator) (st : WorkerState)
    (k : String) (e : MISPEvent) (h : findEvent st.feeds k = some e) :
    findEvent (familyCreate ctx ind st).feeds k = some e := by
  rcases familyCreate_feeds ctx ind st with hf | ⟨k2, hf⟩
  · rw [hf]; exact h
  · rw [hf]; exact findEvent_append_of_some _ h

/-- The category-event stage preserves per-event value uniqueness: the
attribute is only appended under the `not evt_dupe` guard, and the guard
speaks about the very event the append targets. -/
theorem feedStage_inv (ctx : Ctx) (event : Option MISPEvent) (ed : Bool)
    (atype v : String) (seen : SeenDict) (st1 : WorkerState)
    (hinv : ∀ e ∈ st1.feeds, (attrValues e).Nodup)
    (hguard : ∀ evt, event = some evt → ed = false →
        (((findEvent st1.feeds evt.info).map attrValues).getD []).contains v = false) :
    ∀ e ∈ (feedStage ctx event ed atype v seen st1).1.feeds, (attrValues e).Nodup := by
  cases event with
  | none => exact hinv
  | some evt =>
      cases hd : ed with
      | false =>
          intro e he
          have he2 : e ∈ updateFirst evt.info (appendAttr atype v) st1.feeds := he
          exact inv_guarded_add st1.feeds evt.info atype v hinv (hguard evt rfl hd) e he2
      | true =>
          simp only [feedStage, Bool.not_true, Bool.false_eq_true, if_false]
          split
          · intro e he
            have he2 : e ∈ (add_sighting_to_attribute ctx evt.info v seen st1).feeds := he
            rw [add_sighting_to_attribute_feeds] at he2
            exact hinv e he2
          · exact hinv

/-- Lookups for a title distinct from the category event's title see
through the category-event stage. -/
theorem feedStage_findEvent (ctx : Ctx) (event : Option MISPEvent) (ed : Bool)
    (atype v : String) (seen : SeenDict) (st1 : WorkerState) (k : String)
    (hk : ∀ evt, event = some evt → k ≠ evt.info) :
    findEvent (feedStage ctx event ed atype v seen st1).1.feeds k =
      findEvent st1.feeds k := by
  cases event with
  | none => rfl
  | some evt =>
      cases hd : ed with
      | false =>
          show findEvent (updateFirst evt.info (appendAttr atype v) st1.feeds) k =
            findEvent st1.feeds k
          exact findEvent_updateFirst_ne st1.feeds evt.info k _ (hk evt rfl) (fun e => rfl)
      | true =>
          simp only [feedStage, Bool.not_true, Bool.false_eq_true, if_false]
          split
          · show findEvent (add_sighting_to_attribute ctx evt.info v seen st1).feeds k =
              findEvent st1.feeds k
            rw [add_sighting_to_attribute_feeds]
          · rfl

/-- The family-event stage preserves per-event value uniqueness. -/
theorem famStage_inv (ctx : Ctx) (mal_event : Option MISPEvent) (md el : Bool)
    (atype v : String) (seen : SeenDict) (st2 : WorkerState)
    (hinv : ∀ e ∈ st2.feeds, (attrValues e).Nodup)
    (hguard : ∀ mev, mal_event = some mev → md = false →
        (((findEvent st2.feeds mev.info).map attrValues).getD []).contains v = false) :
    ∀ e ∈ (famStage ctx mal_event md el atype v seen st2).1.feeds, (attrValues e).Nodup := by
  cases mal_event with
  | none => exact hinv
  | some mev =>
      cases hd : md with
      | false =>
          intro e he
          have he2 : e ∈ updateFirst mev.info (appendAttr atype v) st2.feeds := he
          exact inv_guarded_add st2.feeds mev.info atype v hinv (hguard mev rfl hd) e he2
      | true =>
          cases hel : el with
          | true => exact hinv
          | false =>
              simp only [famStage, Bool.not_true, Bool.not_false, Bool.false_eq_true,
                Bool.true_and, if_false]
              split
              · intro e he
                have he2 : e ∈ (add_sighting_to_attribute ctx mev.info v seen st2).feeds := he
                rw [add_sighting_to_attribute_feeds] at he2
                exact hinv e he2
              · exact hinv

/-- The report-sighting stage never touches the registry. -/
theorem reportStage_feeds (v : String) (seen : SeenDict) (s d : Bool)
    (st3 : WorkerState) : (reportStage v seen s d st3).feeds = st3.feeds := by
  unfold reportStage
  split
  · exact add_report_sighting_feeds v seen 0 st3
  · rfl

/-- The attribute branch of `add_indicator_event` as a whole preserves
per-event value uniqueness. -/
theorem attrLeaf_inv (ctx : Ctx) (event mal_event : Option MISPEvent)
    (ed md el : Bool) (atype v : String) (seen : SeenDict) (st1 : WorkerState)
    (do_s : Bool)
    (hinv : ∀ e ∈ st1.feeds, (attrValues e).Nodup)
    (hguard1 : ∀ evt, event = some evt → ed = false →
        (((findEvent st1.feeds evt.info).map attrValues).getD []).contains v = false)
    (hguard2 : ∀ mev, mal_event = some mev → md = false →
        (((findEvent (feedStage ctx event ed atype v seen st1).1.feeds mev.info).map
            attrValues).getD []).contains v = false) :
    ∀ e ∈ (reportStage v seen
        ((feedStage ctx event ed atype v seen st1).2.2 ||
          (famStage ctx mal_event md el atype v seen
            (feedStage ctx event ed atype v seen st1).1).2.2) do_s
        (famStage ctx mal_event md el atype v seen
          (feedStage ctx event ed atype v seen st1).1).1).feeds,
      (attrValues e).Nodup := by
  intro e he
  rw [reportStage_feeds] at he
  exact famStage_inv ctx mal_event md el atype v seen _
    (feedStage_inv ctx event ed atype v seen st1 hinv hguard1) hguard2 e he

/-- One worker call preserves per-event value uniqueness: every state an
`add_indicator_event` call can leave behind still has no attribute value
appearing twice under one container event.  The hypothesis `hfam` rules
out a family-container title colliding with the indicator's own
category-container title (the source would then mutate one shared event
object through two stale duplicate flags). -/
theorem add_indicator_event_nodup (ctx : Ctx) (ind : Indicator) (st : WorkerState)
    (hinv : ∀ e ∈ st.feeds, (attrValues e).Nodup)
    (hfam : famClash ctx ind = false) :
    ∀ e ∈ (resultState (add_indicator_event ctx ind st) st).feeds,
      (attrValues e).Nodup := by
  have inv1 := familyCreate_inv ctx ind st hinv
  cases hres : add_indicator_event ctx ind st with
  | exn e => exact hinv
  | ok fr st' =>
      cases hty : ind.type with
      | none =>
          simp only [add_indicator_event, hty] at hres
          exact WorkerResult.noConfusion hres
      | some tname =>
          simp only [add_indicator_event, hty] at hres
          cases hkn : ctx.knownTypes.contains (pyUpper tname) with
          | false =>
              simp only [hkn, Bool.not_false, if_true] at hres
              exact WorkerResult.noConfusion hres
          | true =>
              simp only [hkn, Bool.not_true, Bool.false_eq_true, if_false] at hres
              cases hv : ind.indicator with
              | none =>
                  simp only [hv, optContains, Bool.and_false, Bool.false_eq_true,
                    if_false, WorkerResult.ok.injEq] at hres
                  obtain ⟨h1, h2⟩ := hres
                  subst h2
                  exact inv1
              | some v =>
                have hg1 : ∀ evt,
                    findEvent st.feeds (catSearch ctx (pyUpper tname)) = some evt →
                    ((((findEvent st.feeds (catSearch ctx (pyUpper tname))).map
                        attrValues).getD []).contains v) = false →
                    (((findEvent (familyCreate ctx ind st).feeds evt.info).map
                        attrValues).getD []).contains v = false := by
                  intro evt hevt hed
                  have hinfo : evt.info = catSearch ctx (pyUpper tname) := findEvent_info hevt
                  rw [hinfo, familyCreate_findEvent ctx ind st _ evt hevt]
                  rw [hevt] at hed
                  simpa using hed
                have hg2 : ∀ (atype : String) (seen : SeenDict) (mev : MISPEvent),
                    malEventOf ctx ind (familyCreate ctx ind st) = some mev →
                    ((((malEventOf ctx ind (familyCreate ctx ind st)).map
                        attrValues).getD []).contains v) = false →
                    (((findEvent (feedStage ctx
                          (findEvent st.feeds (catSearch ctx (pyUpper tname)))
                          ((((findEvent st.feeds (catSearch ctx (pyUpper tname))).map
                              attrValues).getD []).contains v)
                          atype v seen (familyCreate ctx ind st)).1.feeds mev.info).map
                        attrValues).getD []).contains v = false := by
                  intro atype seen mev hmev hmd
                  cases hfk : ctx.famKey ind with
                  | none =>
                      simp only [malEventOf, hfk] at hmev
                      exact Option.noConfusion hmev
                  | some k =>
                      simp only [malEventOf, hfk] at hmev
                      have hinfo : mev.info = k := findEvent_info hmev
                      have hkc : k ≠ catSearch ctx (pyUpper tname) := by
                        unfold famClash at hfam
                        rw [hfk, hty] at hfam
                        simpa using hfam
                      have hstable : findEvent (feedStage ctx
                            (findEvent st.feeds (catSearch ctx (pyUpper tname)))
                            ((((findEvent st.feeds (catSearch ctx (pyUpper tname))).map
                                attrValues).getD []).contains v)
                            atype v seen (familyCreate ctx ind st)).1.feeds mev.info =
                          findEvent (familyCreate ctx ind st).feeds mev.info := by
                        apply feedStage_findEvent
                        intro evt hevt
                        rw [hinfo, findEvent_info hevt]
                        exact hkc
                      rw [hstable, hinfo, hmev]
                      simp only [malEventOf, hfk, hmev] at hmd
                      simpa using hmd
                simp only [hv, optContains] at hres
                cases hds : ctx.log_duplicates_as_sightings with
                | true =>
                    simp only [hds, Bool.not_true, Bool.false_and, Bool.false_eq_true,
                      if_false] at hres
                    cases hve : v == "" with
                    | true =>
                        simp only [hve, if_true, WorkerResult.ok.injEq] at hres
                        obtain ⟨h1, h2⟩ := hres
                        subst h2
                        exact inv1
                    | false =>
                        simp only [hve, Bool.false_eq_true, if_false] at hres
                        cases hg : ctx.gen ind with
                        | failed =>
                            simp only [hg, WorkerResult.ok.injEq] at hres
                            obtain ⟨h1, h2⟩ := hres
                            subst h2
                            exact inv1
                        | obj =>
                            simp only [hg, WorkerResult.ok.injEq] at hres
                            obtain ⟨h1, h2⟩ := hres
                            subst h2
                            exact inv1
                        | attr atype =>
                            simp only [hg, WorkerResult.ok.injEq] at hres
                            obtain ⟨h1, h2⟩ := hres
                            subst h2
                            exact attrLeaf_inv ctx
                              (findEvent st.feeds (catSearch ctx (pyUpper tname)))
                              (malEventOf ctx ind (familyCreate ctx ind st))
                              ((((findEvent st.feeds (catSearch ctx (pyUpper tname))).map
                                  attrValues).getD []).contains v)
                              ((((malEventOf ctx ind (familyCreate ctx ind st)).map
                                  attrValues).getD []).contains v)
                              ((((findEvent st.feeds (catSearch ctx (pyUpper tname))).map
                                  attrValues).getD []).contains v)
                              atype v (calculate_seen ind) (familyCreate ctx ind st) true
                              inv1 hg1 (hg2 atype (calculate_seen ind))
                | false =>
                    simp only [hds, Bool.not_false, Bool.true_and] at hres
                    split at hres
                    · simp only [WorkerResult.ok.injEq] at hres
                      obtain ⟨h1, h2⟩ := hres
                      subst h2
                      exact inv1
                    · cases hve : v == "" with
                      | true =>
                          simp only [hve, if_true, WorkerResult.ok.injEq] at hres
                          obtain ⟨h1, h2⟩ := hres
                          subst h2
                          exact inv1
                      | false =>
                          simp only [hve, Bool.false_eq_true, if_false] at hres
                          cases hg : ctx.gen ind with
                          | failed =>
                              simp only [hg, WorkerResult.ok.injEq] at hres
                              obtain ⟨h1, h2⟩ := hres
                              subst h2
                              exact inv1
                          | obj =>
                              simp only [hg, WorkerResult.ok.injEq] at hres
                              obtain ⟨h1, h2⟩ := hres
                              subst h2
                              exact inv1
                          | attr atype =>
                              simp only [hg, WorkerResult.ok.injEq] at hres
                              obtain ⟨h1, h2⟩ := hres
                              subst h2
                              exact attrLeaf_inv ctx
                                (findEvent st.feeds (catSearch ctx (pyUpper tname)))
                                (malEventOf ctx ind (familyCreate ctx ind st))
                                ((((findEvent st.feeds (catSearch ctx (pyUpper tname))).map
                                    attrValues).getD []).contains v)
                                ((((malEventOf ctx ind (familyCreate ctx ind st)).map
                                    attrValues).getD []).contains v)
                                ((((findEvent st.feeds (catSearch ctx (pyUpper tname))).map
                                    attrValues).getD []).contains v)
                                atype v (calculate_seen ind) (familyCreate ctx ind st) false
                                inv1 hg1 (hg2 atype (calculate_seen ind))

/-- One batch worker preserves per-event value uniqueness. -/
theorem batchStep_inv (ctx : Ctx) (acc : BatchAcc) (ind : Indicator)
    (hinv : ∀ e ∈ acc.st.feeds, (attrValues e).Nodup)
    (hfam : famClash ctx ind = false) :
    ∀ e ∈ (batchStep ctx acc ind).st.feeds, (attrValues e).Nodup := by
  unfold batchStep
  cases hit : indicator_thread ctx ind acc.st with
  | exn e => exact hinv
  | ok fr st' =>
      have h2 : add_indicator_event ctx ind acc.st = WorkerResult.ok fr st' := by
        unfold indicator_thread at hit
        split at hit
        · exact hit
        · exact WorkerResult.noConfusion hit
      have h3 := add_indicator_event_nodup ctx ind acc.st hinv hfam
      rw [h2] at h3
      exact h3

/-- The batch fold preserves per-event value uniqueness. -/
theorem runBatch_foldl_inv (ctx : Ctx) (l : List Indicator) (acc : BatchAcc)
    (hinv : ∀ e ∈ acc.st.feeds, (attrValues e).Nodup)
    (hfam : ∀ ind ∈ l, famClash ctx ind = false) :
    ∀ e ∈ (l.foldl (batchStep ctx) acc).st.feeds, (attrValues e).Nodup := by
  induction l generalizing acc with
  | nil => exact hinv
  | cons a rest ih =>
      exact ih (batchStep ctx acc a)
        (batchStep_inv ctx acc a hinv (hfam a (List.mem_cons_self _ _)))
        (fun i hi => hfam i (List.mem_cons_of_mem _ hi))

/-- C5 counterexample: the spec's same-batch duplicate scenario
(`{type: "domain", value: "evil.example", last_updated: 1000}` arriving
twice in one batch) fails on the code on both counts.  (1) Under the
interleaving the unsynchronized pool permits — both workers compute the
line-531/534 duplicate flags against the same registry state before either
runs the line-497 append — the value is attached twice to the same
category event, so the event's value list holds a duplicate.  (2) Even
sequentially, with duplicate-sightings off and only the category event
holding the value, the second occurrence is neither counted as a skip nor
recorded as a sighting — the state is left exactly unchanged — so it is
silently dropped, not "recorded as a skip or a sighting". -/
theorem same_batch_duplicate_counterexample :
    (racedSameValuePair ctxFix evilDomain stFix).feeds = [doubledEvent] ∧
    ¬ (attrValues doubledEvent).Nodup ∧
    stAfterOne.feeds = [singleEvent] ∧
    stAfterOne.skipped = 0 ∧
    stAfterOne.sightings = [] ∧
    resultState (add_indicator_event ctxFix evilDomain stAfterOne) stAfterOne =
      stAfterOne :=
  ⟨rfl, by decide, rfl, rfl, rfl, rfl⟩

/-- C5 (amended): the duplicate flags block a second attribute only under
schedules where a worker's flag computation (lines 529-535) and its
conditional append (line 497) are not interleaved by another worker's
append to the same container — a guarantee the source omits, since neither
step holds the lock.  Under such sequential schedules, starting from a
registry whose events each hold pairwise-distinct attribute values,
processing any batch — the same `(type, value)` indicator arriving twice
in the same batch included — leaves every container event's value list
duplicate-free; a duplicate second occurrence is dropped instead of
attached: counted as a skip when both containers hold the value and
duplicate-sightings are off, recorded as a sighting when they are on (and
silently ignored when only the category container holds it and they are
off — see the counterexample).  The `hfam` hypothesis records that a
family-container title never equals a category-container title (the
spec's registry identity invariant). -/
theorem batch_attribute_uniqueness (ctx : Ctx) (batch : List Indicator) (st : WorkerState)
    (hinv : ∀ e ∈ st.feeds, (attrValues e).Nodup)
    (hfam : ∀ ind ∈ batch, famClash ctx ind = false) :
    (∀ e ∈ (runBatch ctx batch st).st.feeds, (attrValues e).Nodup) ∧
    resultState (add_indicator_event ctxFam evilDomain stBothDup) stBothDup =
      { stBothDup with skipped := stBothDup.skipped + 1 } ∧
    resultState (add_indicator_event ctxSight evilDomain stOneDup) stOneDup =
      { stOneDup with sightings :=
          stOneDup.sightings ++ [("Indicator Type: DOMAIN", "evil.example")] } :=
  ⟨runBatch_foldl_inv ctx batch _ hinv hfam, rfl, rfl⟩

/-- C5 witness: the amended theorem evaluated on the spec's scenario —
the indicator `{type: "domain", value: "evil.example", last_updated: 1000}`
twice in one sequentially scheduled batch against a registry holding one
empty category event. -/
theorem batch_attribute_uniqueness_witness :
    ((∀ e ∈ stFix.feeds, (attrValues e).Nodup) ∧
      (∀ ind ∈ [evilDomain, evilDomain], famClash ctxFix ind = false)) ∧
    ((∀ e ∈ (runBatch ctxFix [evilDomain, evilDomain] stFix).st.feeds,
        (attrValues e).Nodup) ∧
      resultState (add_indicator_event ctxFam evilDomain stBothDup) stBothDup =
        { stBothDup with skipped := stBothDup.skipped + 1 } ∧
      resultState (add_indicator_event ctxSight evilDomain stOneDup) stOneDup =
        { stOneDup with sightings :=
            stOneDup.sightings ++ [("Indicator Type: DOMAIN", "evil.example")] }) :=
  ⟨⟨by decide, by decide⟩,
    batch_attribute_uniqueness ctxFix [evilDomain, evilDomain] stFix
      (by decide) (by decide)⟩

end CsMisp
